import Mathlib

/-!
Verification of the client-side API access layer
(`src/frontend/js/app/api.js` of nginx-proxy-manager).

The JavaScript module is shallowly embedded: JS objects become association
lists of string keys to `Json` values, the jQuery `$.ajax` settings object
becomes the `Request` structure, promise resolution/rejection becomes
`Except`, and the mutable token store (an external collaborator, its
implementation not part of the embedded module) becomes explicit state
passing on a `List Token` stack.  JS truthiness and string coercions are
embedded where the source relies on them (`||` defaults, the bearer
header built from a possibly-null token, `parseInt(header, 10)`).
-/

namespace NpmApi

/-- JSON-like JavaScript values, as handled by the module (bodies, ids,
error envelopes). `num` is restricted to integers, which is what the
ids and HTTP codes of the module are. -/
inductive Json where
  | null
  | bool (b : Bool)
  | num (n : Int)
  | str (s : String)
  | arr (xs : List Json)
  | obj (fields : List (String × Json))

/-- Lowercase hexadecimal digit. -/
def hexDigitL (n : Nat) : Char :=
  if n < 10 then Char.ofNat (48 + n) else Char.ofNat (97 + (n - 10))

/-- Uppercase hexadecimal digit (as produced by `encodeURIComponent`). -/
def hexDigitU (n : Nat) : Char :=
  if n < 10 then Char.ofNat (48 + n) else Char.ofNat (65 + (n - 10))

/-- Escape one character the way `JSON.stringify` escapes characters
inside a string literal. -/
def escapeJsonChar (c : Char) : String :=
  if c = Char.ofNat 34 then "\\\""
  else if c = Char.ofNat 92 then "\\\\"
  else if c = Char.ofNat 8 then "\\b"
  else if c = Char.ofNat 9 then "\\t"
  else if c = Char.ofNat 10 then "\\n"
  else if c = Char.ofNat 12 then "\\f"
  else if c = Char.ofNat 13 then "\\r"
  else if c.toNat < 32 then
    "\\u00" ++ String.mk [hexDigitL (c.toNat / 16), hexDigitL (c.toNat % 16)]
  else String.mk [c]

/-- Escape a whole string for `JSON.stringify` (without the surrounding
quotes). -/
def escapeJsonString (s : String) : String :=
  String.join (s.toList.map escapeJsonChar)

mutual

/-- `JSON.stringify` on the embedded values. -/
def stringify : Json → String
  | Json.null => "null"
  | Json.bool b => if b then "true" else "false"
  | Json.num n => toString n
  | Json.str s => "\"" ++ escapeJsonString s ++ "\""
  | Json.arr xs => "[" ++ stringifyList xs ++ "]"
  | Json.obj fs => "\x7b" ++ stringifyFields fs ++ "\x7d"

/-- Comma-separated serialization of array elements. -/
def stringifyList : List Json → String
  | [] => ""
  | [x] => stringify x
  | x :: y :: xs => stringify x ++ "," ++ stringifyList (y :: xs)

/-- Comma-separated serialization of object members. -/
def stringifyFields : List (String × Json) → String
  | [] => ""
  | [(k, v)] => "\"" ++ escapeJsonString k ++ "\":" ++ stringify v
  | (k, v) :: f :: fs =>
      "\"" ++ escapeJsonString k ++ "\":" ++ stringify v ++ "," ++ stringifyFields (f :: fs)

end

/-- JavaScript `String(v)` coercion for the values the module concatenates
into paths (ids are integers or strings in practice). -/
def jsValToString : Json → String
  | Json.null => "null"
  | Json.bool b => if b then "true" else "false"
  | Json.num n => toString n
  | Json.str s => s
  | Json.arr _ => ""
  | Json.obj _ => "[object Object]"

/-- JavaScript `parseInt(s, 10)`: skip leading whitespace, optional sign,
then the longest leading run of decimal digits; `NaN` (here `none`) when
that run is empty. -/
def jsParseInt (s : String) : Option Int :=
  let cs := s.toList.dropWhile Char.isWhitespace
  let signAndRest : Int × List Char :=
    match cs with
    | c :: rest =>
        if c = Char.ofNat 45 then (-1, rest)
        else if c = Char.ofNat 43 then (1, rest)
        else (1, cs)
    | [] => (1, [])
  let digits := signAndRest.2.takeWhile Char.isDigit
  if digits.isEmpty then none
  else some (signAndRest.1 *
    Int.ofNat (digits.foldl (fun acc c => 10 * acc + (c.toNat - 48)) 0))

/-- The characters `encodeURIComponent` leaves unescaped:
letters, digits, hyphen, underscore, dot, bang, tilde, star, quote and
parentheses. -/
def uriUnreserved (c : Char) : Bool :=
  c.isAlpha || c.isDigit || "-_.!~*()".toList.contains c || c.toNat == 39

/-- UTF-8 bytes of a character (as `Nat`s below 256). -/
def utf8Bytes (c : Char) : List Nat :=
  let n := c.toNat
  if n < 128 then [n]
  else if n < 2048 then [192 + n / 64, 128 + n % 64]
  else if n < 65536 then [224 + n / 4096, 128 + (n / 64) % 64, 128 + n % 64]
  else [240 + n / 262144, 128 + (n / 4096) % 64, 128 + (n / 64) % 64, 128 + n % 64]

/-- JavaScript `encodeURIComponent`: unreserved characters pass through,
every other character is percent-encoded byte-by-byte in uppercase hex. -/
def encodeURIComponent (s : String) : String :=
  String.join (s.toList.map (fun c =>
    if uriUnreserved c then String.mk [c]
    else String.join ((utf8Bytes c).map (fun b =>
      "%" ++ String.mk [hexDigitU (b / 16), hexDigitU (b % 16)]))))

/-- Value of a hexadecimal digit, `none` for other characters. -/
def hexVal (c : Char) : Option Nat :=
  if 48 ≤ c.toNat ∧ c.toNat ≤ 57 then some (c.toNat - 48)
  else if 65 ≤ c.toNat ∧ c.toNat ≤ 70 then some (c.toNat - 55)
  else if 97 ≤ c.toNat ∧ c.toNat ≤ 102 then some (c.toNat - 87)
  else none

/-- Percent-decoding of a character list (single-byte sequences only; the
strings compared with it in this development are ASCII, and malformed
escapes are left undecoded). -/
def percentDecodeChars : List Char → List Char
  | [] => []
  | c :: rest =>
      if c = Char.ofNat 37 then
        match rest with
        | a :: b :: rest2 =>
            match hexVal a, hexVal b with
            | some x, some y => Char.ofNat (16 * x + y) :: percentDecodeChars rest2
            | _, _ => c :: a :: b :: percentDecodeChars rest2
        | [a] => [c, a]
        | [] => [c]
      else c :: percentDecodeChars rest

/-- Split a character list on a separator character. -/
def splitOnChar (sep : Char) : List Char → List (List Char)
  | [] => [[]]
  | c :: rest =>
      let r := splitOnChar sep rest
      if c = sep then [] :: r
      else match r with
        | [] => [[c]]
        | g :: gs => (c :: g) :: gs

/-- Parse one `key=value` pair of a query string: the key is everything
before the first `=`, the value (everything after it) is percent-decoded. -/
def parseQueryParam (cs : List Char) : String × String :=
  let key := cs.takeWhile (fun c => c ≠ Char.ofNat 61)
  let rest := cs.dropWhile (fun c => c ≠ Char.ofNat 61)
  match rest with
  | [] => (String.mk key, "")
  | _ :: v => (String.mk key, String.mk (percentDecodeChars v))

/-- Parse a query string into decoded `(key, value)` pairs: split on `&`,
then split each pair on its first `=` and percent-decode the value. -/
def parseQuery (s : String) : List (String × String) :=
  (splitOnChar (Char.ofNat 38) s.toList).map parseQueryParam

/-- A token held by the external token store; `t` is the opaque bearer
value the module reads. -/
structure Token where
  t : String

/-- Per-call configuration recognized by `fetch` (`options`); `none`
models a JS `undefined` member. -/
structure Options where
  contentType : Option String := none
  processData : Option Bool := none
  timeout : Option Int := none

/-- A request body as handed to `fetch`: absent (`undef`), an already
serialized string, or a structured value (a JS object or array, for which
`typeof data` is the word object; `FormData` instances are also objects,
with no own enumerable members, i.e. `Body.obj (Json.obj [])`). -/
inductive Body where
  | undef
  | str (s : String)
  | obj (j : Json)

/-- Substring test on character lists. -/
def listContainsSub (needle : List Char) : List Char → Bool
  | [] => needle.isEmpty
  | c :: rest => needle.isPrefixOf (c :: rest) || listContainsSub needle rest

/-- The test `options.contentType.match(/json/im)`: a case-insensitive
substring match of `json` (the subject is folded to lowercase character
by character). -/
def matchesJsonPattern (ct : String) : Bool :=
  listContainsSub "json".toList (ct.toList.map Char.toLower)

/-- Condition of line 46: the content type is undefined, or it matches
the regex `/json/im`. -/
def jsonNegotiation (o : Options) : Bool :=
  match o.contentType with
  | none => true
  | some ct => matchesJsonPattern ct

/-- Lines 46-48: when the JSON negotiation condition holds and
`data` is an object, `data` is reassigned to `JSON.stringify(data)`. -/
def bodyAfterNegotiation (o : Options) (data : Body) : Body :=
  match data with
  | Body.obj j => if jsonNegotiation o then Body.str (stringify j) else Body.obj j
  | b => b

/-- Line 52, the `data:` ajax setting: an object is serialized with
`JSON.stringify`, anything else is passed along. -/
def ajaxDataSetting : Body → Body
  | Body.obj j => Body.str (stringify j)
  | b => b

/-- The payload actually handed to `$.ajax` after both of the conversion
points above. -/
def transmittedData (o : Options) (data : Body) : Body :=
  ajaxDataSetting (bodyAfterNegotiation o data)

/-- The `beforeSend` header (line 64): the word Bearer, a space, then
`token.t` when a token is held, else the JS `null`, which string
concatenation renders as the four-letter text null. -/
def authHeader (token : Option Token) : String :=
  match token with
  | some tk => "Bearer " ++ tk.t
  | none => "Bearer " ++ "null"

/-- The `contentType:` setting:
the configured content type when truthy, else the default
`application/json; charset=UTF-8` (an empty string is falsy and also
falls back to the default). -/
def effectiveContentType (o : Options) : String :=
  match o.contentType with
  | some ct => if ct ≠ "" then ct else "application/json; charset=UTF-8"
  | none => "application/json; charset=UTF-8"

/-- The `processData:` setting: `options.processData || true` (a
configured `false` is falsy, so the right operand is taken). -/
def effectiveProcessData (o : Options) : Bool :=
  match o.processData with
  | some b => b || true
  | none => true

/-- The `timeout:` setting: `options.timeout ? options.timeout : 15000`
(`0` is falsy and falls back to the default). -/
def effectiveTimeout (o : Options) : Int :=
  match o.timeout with
  | some ms => if ms ≠ 0 then ms else 15000
  | none => 15000

/-- The arguments of one `fetch(verb, path, data, options)` call, as the
resource methods build them. -/
structure Call where
  verb : String
  path : String
  data : Body := Body.undef
  options : Options := {}

/-- The `$.ajax` settings object `fetch` builds (lines 50-65), with the
`Authorization` header attached by `beforeSend`; `token` is the
`Tokens.getTopToken()` read at the start of the call. -/
structure Request where
  url : String
  data : Body
  verb : String
  contentType : String
  processData : Bool
  timeout : Int
  authorization : String

/-- Body of `fetch`: compose the URL from the fixed `/api/` root, run the
content negotiation on the body, and fill every ajax setting. -/
def issueRequest (token : Option Token) (c : Call) : Request :=
  { url := "/api/" ++ c.path
    data := transmittedData c.options c.data
    verb := c.verb
    contentType := effectiveContentType c.options
    processData := effectiveProcessData c.options
    timeout := effectiveTimeout c.options
    authorization := authHeader token }

/-- The response object seen by the success callback, exposing
`getResponseHeader`. -/
structure Response where
  headers : List (String × String)

/-- `response.getResponseHeader(name)`: the header value or `null`. -/
def getResponseHeader (r : Response) (name : String) : Option String :=
  (r.headers.find? (fun p => p.1 == name)).map (fun p => p.2)

/-- What the promise resolves with on transport success: either the
pagination envelope or the raw response object. -/
inductive FetchSuccess where
  | paginated (data : Json) (total offset limit : Option Int)
  | raw (response : Response)

/-- `parseInt(header, 10)` where `header` may be `null`: `null` is coerced
to the string `"null"`, which parses to `NaN` (`none`). -/
def headerParseInt (h : Option String) : Option Int :=
  jsParseInt (match h with | some s => s | none => "null")

/-- The `success:` callback (lines 67-81): wrap into a pagination envelope
exactly when the `X-Dataset-Total` header is non-null, else resolve with
the raw response object. -/
def successHandler (data : Json) (response : Response) : FetchSuccess :=
  match getResponseHeader response "X-Dataset-Total" with
  | some total =>
      FetchSuccess.paginated data (jsParseInt total)
        (headerParseInt (getResponseHeader response "X-Dataset-Offset"))
        (headerParseInt (getResponseHeader response "X-Dataset-Limit"))
  | none => FetchSuccess.raw response

/-- The backend error envelope member `error`, when defined: its
`message` and `code` members may each be absent. -/
structure ErrObj where
  message : Option String
  code : Option Int

/-- The parsed error body `xhr.responseJSON`, when defined. -/
structure ErrJson where
  error : Option ErrObj

/-- The failed transport object seen by the error callback. -/
structure Xhr where
  responseJSON : Option ErrJson
  responseText : String

/-- The normalized error `fetch` rejects with. -/
structure ApiError where
  message : String
  debug : String
  code : Int

/-- `xhr.responseJSON.error.code || 500`: a `0` code is falsy and also
falls back to `500`. -/
def jsOrIntCode (v : Option Int) (d : Int) : Int :=
  match v with
  | some n => if n ≠ 0 then n else d
  | none => d

/-- The `error:` callback (lines 83-92): take message and code from the
JSON error envelope when `responseJSON.error.message` is defined, else
keep the transport error text with code 400; always attach
`xhr.responseText` as `debug`. -/
def errorHandler (xhr : Xhr) (errorThrown : String) : ApiError :=
  match xhr.responseJSON with
  | some rj =>
      match rj.error with
      | some e =>
          match e.message with
          | some m => ⟨m, xhr.responseText, jsOrIntCode e.code 500⟩
          | none => ⟨errorThrown, xhr.responseText, 400⟩
      | none => ⟨errorThrown, xhr.responseText, 400⟩
  | none => ⟨errorThrown, xhr.responseText, 400⟩

/-- Read a member of a JS object (objects have unique keys). -/
def jsGet (key : String) (fields : List (String × Json)) : Option Json :=
  (fields.find? (fun p => p.1 == key)).map (fun p => p.2)

/-- The `delete obj[key]` statement: the post-state of the object. -/
def jsDelete (key : String) (fields : List (String × Json)) : List (String × Json) :=
  fields.filter (fun p => p.1 != key)

/-- JS string coercion of a possibly-undefined value (concatenating an
undefined id into a path yields the text undefined). -/
def jsOptToString : Option Json → String
  | some v => jsValToString v
  | none => "undefined"

/-- `makeExpansionString` (lines 102-109): percent-encode each expansion
item and join them with commas (the underscore `forEach`/`push`/`join`
loop is a map followed by a join). -/
def makeExpansionString (expand : List String) : String :=
  String.intercalate "," (expand.map encodeURIComponent)

/-- `getAllObjects` (lines 117-129): build the query string from the
optional expansion list (only when it is a non-empty array) and the
optional raw query string, then dispatch a GET. -/
def getAllObjects (path : String) (expand : Option (List String)) (query : Option String) : Call :=
  let params :=
    (match expand with
     | some xs => if xs.length ≠ 0 then ["expand=" ++ makeExpansionString xs] else []
     | none => [])
    ++
    (match query with
     | some q => ["query=" ++ q]
     | none => [])
  { verb := "get"
    path := path ++ (if params.length ≠ 0 then "?" ++ String.intercalate "&" params else "") }

/-- The options the `upload` wrapper (lines 136-142) passes to `fetch`. -/
def uploadOptions : Options :=
  { contentType := some "multipart/form-data", processData := some false }

/-- `upload(path, form_data)`: POST through `fetch` with the multipart
options. -/
def upload (path : String) (form_data : Body) : Call :=
  { verb := "post", path := path, data := form_data, options := uploadOptions }

/-- The shared body of the `update` methods (e.g. `Users.update`, lines
247-251): read `data.id`, delete it from `data` in place, and PUT the
mutated object to `base + id`.  The first component is the post-state of
the `data` argument of the caller (the same object the caller still
holds). -/
def updateObject (base : String) (data : List (String × Json)) :
    List (String × Json) × Call :=
  let id := jsGet "id" data
  let body := jsDelete "id" data
  (body, { verb := "put", path := base ++ jsOptToString id, data := Body.obj (Json.obj body) })

/-- `Users.update` (lines 247-251). -/
def Users.update (data : List (String × Json)) : List (String × Json) × Call :=
  updateObject "users/" data

/-- `Nginx.ProxyHosts.update` (lines 314-318). -/
def ProxyHosts.update (data : List (String × Json)) : List (String × Json) × Call :=
  updateObject "nginx/proxy-hosts/" data

/-- `Nginx.RedirectionHosts.update` (lines 360-364). -/
def RedirectionHosts.update (data : List (String × Json)) : List (String × Json) × Call :=
  updateObject "nginx/redirection-hosts/" data

/-- `Nginx.Streams.update` (lines 406-410). -/
def Streams.update (data : List (String × Json)) : List (String × Json) × Call :=
  updateObject "nginx/streams/" data

/-- `Nginx.DeadHosts.update` (lines 443-447). -/
def DeadHosts.update (data : List (String × Json)) : List (String × Json) × Call :=
  updateObject "nginx/dead-hosts/" data

/-- `AccessLists.update` (lines 490-494). -/
def AccessLists.update (data : List (String × Json)) : List (String × Json) × Call :=
  updateObject "access-lists/" data

/-- The request `FileUpload` (lines 144-164) sends: a raw POST with a
`text/plain` mime override and the same bearer header as `fetch`. -/
structure UploadRequest where
  verb : String
  url : String
  mime : String
  authorization : String
  body : Body

/-- Request construction of `FileUpload` (lines 146-152); `token` is the
`Tokens.getTopToken()` read when the call starts. -/
def fileUploadRequest (path : String) (token : Option Token) (fd : Body) : UploadRequest :=
  ⟨"POST", "/api/" ++ path, "text/plain", authHeader token, fd⟩

/-- The `onreadystatechange` completion handler of `FileUpload` (lines
154-162): it reads only `xhr.status` and `xhr.responseText`; the response
headers argument is never consulted (no pagination parsing, no content
negotiation). -/
def fileUploadComplete (status : Nat) (responseText : String)
    (_headers : List (String × String)) : Except String String :=
  if status ≠ 200 ∧ status ≠ 201 then Except.error ("Upload failed: " ++ toString status)
  else Except.ok responseText

/-- `Nginx.ProxyHosts.setCerts` (lines 333-335): delegate to `FileUpload`
on the certificates sub-path. -/
def ProxyHosts.setCerts (id : Int) (form_data : Body) (token : Option Token) : UploadRequest :=
  fileUploadRequest ("nginx/proxy-hosts/" ++ toString id ++ "/certificates") token form_data

/-- Modelled from the spec: the token store collaborator (`tokens.js`,
whose implementation is not among the embedded sources) holds a stack of
tokens; `getTopToken` reads the current/topmost one. -/
def getTopToken (store : List Token) : Option Token :=
  store.head?

/-- Modelled from the spec: `clearAllTokens` empties the store. -/
def clearTokens (_ : List Token) : List Token :=
  []

/-- Modelled from the spec: `addToken` stores a new token as the new
current/topmost entry. -/
def addToken (tk : Token) (store : List Token) : List Token :=
  tk :: store

/-- Modelled from the spec: `setCurrentToken` overwrites the current
(topmost) token in the store. -/
def setCurrentToken (tk : Token) (store : List Token) : List Token :=
  match store with
  | [] => [tk]
  | _ :: rest => tk :: rest

/-- A login/refresh response value: `token` is its (possibly absent)
`token` member. -/
structure TokenResponse where
  token : Option Token

/-- The credential call `Tokens.login` dispatches (line 180). -/
def Tokens.login (identity secret : String) : Call :=
  { verb := "post", path := "tokens"
    data := Body.obj (Json.obj [("identity", Json.str identity), ("secret", Json.str secret)]) }

/-- The `.then` continuation of `Tokens.login` (lines 181-194), with the
token store state passed explicitly: on a response holding a token,
optionally wipe the store, then add the token and resolve with it; else
clear the store and reject. -/
def loginHandler (wipe : Bool) (response : TokenResponse) (store : List Token) :
    List Token × Except String Token :=
  match response.token with
  | some tk =>
      let store1 := if wipe then clearTokens store else store
      (addToken tk store1, Except.ok tk)
  | none => (clearTokens store, Except.error "No token returned")

/-- The `.then` continuation of `Tokens.refresh` (lines 202-210): on a
response holding a token, overwrite the current token and resolve with
it; else clear the store and reject. -/
def refreshHandler (response : TokenResponse) (store : List Token) :
    List Token × Except String Token :=
  match response.token with
  | some tk => (setCurrentToken tk store, Except.ok tk)
  | none => (clearTokens store, Except.error "No token returned")

/-- String concatenation is associative (proved through the character
data). -/
theorem strAppendAssoc (a b c : String) : (a ++ b) ++ c = a ++ (b ++ c) := by
  apply String.ext
  simp [String.data_append]

/-- Looking a key up in an object from which that key was just deleted
yields nothing. -/
theorem jsGet_jsDelete_self (k : String) (fs : List (String × Json)) :
    jsGet k (jsDelete k fs) = none := by
  unfold jsGet jsDelete
  rw [Option.map_eq_none', List.find?_eq_none]
  intro x hx
  have h2 := (List.mem_filter.mp hx).2
  simpa [bne] using h2

/-- C1: on transport success, when the X-Dataset-Total response header is
non-null the promise resolves with exactly the envelope of the decoded
body and a pagination record whose total, offset and limit are the three
dataset headers parsed as base-10 integers; when the X-Dataset-Total
header is null, the promise resolves with the raw response object
unchanged. -/
theorem c1_success_pagination_envelope (d : Json) (r : Response) :
    (∀ t, getResponseHeader r "X-Dataset-Total" = some t →
      successHandler d r = FetchSuccess.paginated d (jsParseInt t)
        (headerParseInt (getResponseHeader r "X-Dataset-Offset"))
        (headerParseInt (getResponseHeader r "X-Dataset-Limit")))
    ∧ (getResponseHeader r "X-Dataset-Total" = none →
      successHandler d r = FetchSuccess.raw r) := by
  constructor
  · intro t ht
    simp [successHandler, ht]
  · intro h
    simp [successHandler, h]

/-- Witness for C1 at concrete responses: headers total 42, offset 0,
limit 10 produce the parsed envelope, and a response without the total
header is returned raw. -/
theorem c1_success_pagination_envelope_witness :
    successHandler (Json.str "x")
        ⟨[("X-Dataset-Total", "42"), ("X-Dataset-Offset", "0"), ("X-Dataset-Limit", "10")]⟩
      = FetchSuccess.paginated (Json.str "x") (some 42) (some 0) (some 10)
    ∧ successHandler (Json.str "x") ⟨[("Content-Type", "application/json")]⟩
      = FetchSuccess.raw ⟨[("Content-Type", "application/json")]⟩ := by
  constructor
  · have h := (c1_success_pagination_envelope (Json.str "x")
      ⟨[("X-Dataset-Total", "42"), ("X-Dataset-Offset", "0"), ("X-Dataset-Limit", "10")]⟩).1
      "42" rfl
    rw [h]
    congr 1
  · exact (c1_success_pagination_envelope (Json.str "x")
      ⟨[("Content-Type", "application/json")]⟩).2 rfl

/-- C2 (amended): every failure rejects with a normalized error whose
debug member is always the raw response body text; when the response body
is JSON with an error.message member, the message is that member and the
code is error.code when error.code is present and nonzero, and 500 when
it is absent or zero (a zero code is falsy and also falls back to 500);
in every other case the message is the transport error text and the code
is 400. -/
theorem c2_error_normalization (xhr : Xhr) (errorThrown : String) :
    (errorHandler xhr errorThrown).debug = xhr.responseText
    ∧ (∀ rj e m, xhr.responseJSON = some rj → rj.error = some e → e.message = some m →
        (errorHandler xhr errorThrown).message = m
        ∧ (errorHandler xhr errorThrown).code
            = (match e.code with
               | some n => if n = 0 then 500 else n
               | none => 500))
    ∧ (xhr.responseJSON = none →
        errorHandler xhr errorThrown = ⟨errorThrown, xhr.responseText, 400⟩)
    ∧ (∀ rj, xhr.responseJSON = some rj → rj.error = none →
        errorHandler xhr errorThrown = ⟨errorThrown, xhr.responseText, 400⟩)
    ∧ (∀ rj e, xhr.responseJSON = some rj → rj.error = some e → e.message = none →
        errorHandler xhr errorThrown = ⟨errorThrown, xhr.responseText, 400⟩) := by
  obtain ⟨rjOpt, text⟩ := xhr
  refine ⟨?_, ?_, ?_, ?_, ?_⟩
  · cases rjOpt with
    | none => rfl
    | some rj =>
        obtain ⟨eOpt⟩ := rj
        cases eOpt with
        | none => rfl
        | some e =>
            obtain ⟨mOpt, cOpt⟩ := e
            cases mOpt <;> rfl
  · intro rj e m h1 h2 h3
    subst h1
    obtain ⟨eOpt⟩ := rj
    simp only at h2
    subst h2
    obtain ⟨mOpt, cOpt⟩ := e
    simp only at h3
    subst h3
    constructor
    · rfl
    · show jsOrIntCode cOpt 500 = _
      cases cOpt with
      | none => rfl
      | some n =>
          rcases eq_or_ne n 0 with hn | hn <;> simp [jsOrIntCode, hn]
  · intro h
    subst h
    rfl
  · intro rj h1 h2
    subst h1
    obtain ⟨eOpt⟩ := rj
    simp only at h2
    subst h2
    rfl
  · intro rj e h1 h2 h3
    subst h1
    obtain ⟨eOpt⟩ := rj
    simp only at h2
    subst h2
    obtain ⟨mOpt, cOpt⟩ := e
    simp only at h3
    subst h3
    rfl

/-- Witness for C2 at concrete failures: a JSON envelope with message Bad
input and code 422 is taken verbatim, and a body that is not a JSON error
envelope yields the transport text with code 400. -/
theorem c2_error_normalization_witness :
    (errorHandler ⟨some ⟨some ⟨some "Bad input", some 422⟩⟩, "rawbody"⟩ "timeout").message
        = "Bad input"
    ∧ (errorHandler ⟨some ⟨some ⟨some "Bad input", some 422⟩⟩, "rawbody"⟩ "timeout").code = 422
    ∧ errorHandler ⟨none, "<html>"⟩ "timeout" = ⟨"timeout", "<html>", 400⟩ := by
    have h := (c2_error_normalization ⟨some ⟨some ⟨some "Bad input", some 422⟩⟩, "rawbody"⟩
      "timeout").2.1 ⟨some ⟨some "Bad input", some 422⟩⟩ ⟨some "Bad input", some 422⟩
      "Bad input" rfl rfl rfl
    have h2 := (c2_error_normalization ⟨none, "<html>"⟩ "timeout").2.2.1 rfl
    refine ⟨h.1, ?_, h2⟩
    rw [h.2]
    decide

/-- C2 counterexample: the claim as stated demands that a present
error.code value be used verbatim, but with error.code equal to 0 the
code produced is 500 (the source falls back on any falsy code), not 0. -/
theorem c2_zero_code_counterexample :
    (errorHandler ⟨some ⟨some ⟨some "Bad input", some 0⟩⟩, "rawbody"⟩ "timeout").code = 500
    ∧ ¬ (errorHandler ⟨some ⟨some ⟨some "Bad input", some 0⟩⟩, "rawbody"⟩ "timeout").code = 0 := by
  constructor
  · rfl
  · intro h
    rw [show (errorHandler ⟨some ⟨some ⟨some "Bad input", some 0⟩⟩, "rawbody"⟩
      "timeout").code = 500 from rfl] at h
    exact absurd h (by decide)

/-- C3: for every call through fetch and through FileUpload, the
Authorization request header is the word Bearer, a space, and the t value
of the topmost stored token when the store holds one, and the text
Bearer null when the store is empty. -/
theorem c3_bearer_header (store : List Token) (c : Call) (p : String) (fd : Body) :
    (∀ tk rest, store = tk :: rest →
      (issueRequest (getTopToken store) c).authorization = "Bearer " ++ tk.t
      ∧ (fileUploadRequest p (getTopToken store) fd).authorization = "Bearer " ++ tk.t)
    ∧ (store = [] →
      (issueRequest (getTopToken store) c).authorization = "Bearer null"
      ∧ (fileUploadRequest p (getTopToken store) fd).authorization = "Bearer null") := by
  constructor
  · intro tk rest h
    subst h
    exact ⟨rfl, rfl⟩
  · intro h
    subst h
    exact ⟨rfl, rfl⟩

/-- Witness for C3: a held token with value abc yields the header Bearer
abc on both paths, and the empty store yields Bearer null on both. -/
theorem c3_bearer_header_witness :
    (issueRequest (getTopToken [⟨"abc"⟩]) ⟨"get", "users", Body.undef, {}⟩).authorization
        = "Bearer abc"
    ∧ (fileUploadRequest "x" (getTopToken [⟨"abc"⟩]) Body.undef).authorization = "Bearer abc"
    ∧ (issueRequest (getTopToken []) ⟨"get", "users", Body.undef, {}⟩).authorization
        = "Bearer null"
    ∧ (fileUploadRequest "x" (getTopToken []) Body.undef).authorization = "Bearer null" := by
  have h1 := (c3_bearer_header [⟨"abc"⟩] ⟨"get", "users", Body.undef, {}⟩ "x" Body.undef).1
    ⟨"abc"⟩ [] rfl
  have h2 := (c3_bearer_header [] ⟨"get", "users", Body.undef, {}⟩ "x" Body.undef).2 rfl
  exact ⟨h1.1, h1.2, h2.1, h2.2⟩

/-- C4 (code evaluated at the failing input): under the multipart
options of the upload wrapper a structured body is still transmitted as
its JSON serialization, because the data handoff of line 52 stringifies
any object; it is not passed through unmodified as the claim states.  A
FormData-like object with no own enumerable members becomes the
two-character text of an empty JSON object.  The JSON-content-type half
of the claim does hold: the third conjunct shows the default content
type transmitting the JSON serialization. -/
theorem c4_multipart_body_not_raw :
    transmittedData uploadOptions (Body.obj (Json.obj [("a", Json.num 1)]))
      = Body.str "\x7b\"a\":1\x7d"
    ∧ transmittedData uploadOptions (Body.obj (Json.obj [])) = Body.str "\x7b\x7d"
    ∧ transmittedData {} (Body.obj (Json.obj [("a", Json.num 1)]))
      = Body.str "\x7b\"a\":1\x7d" := by
  exact ⟨rfl, rfl, rfl⟩

/-- C5 (code evaluated at the failing input): the upload wrapper
configures processData as false, yet the issued request carries
processData true; indeed the expression of line 56 evaluates to true for
every configuration. -/
theorem c5_processdata_always_true :
    uploadOptions.processData = some false
    ∧ (issueRequest none (upload "nginx/dead-hosts/5/certificates"
        (Body.obj (Json.obj [])))).processData = true
    ∧ (∀ o : Options, effectiveProcessData o = true) := by
  refine ⟨rfl, rfl, ?_⟩
  intro o
  cases h : o.processData with
  | none => simp [effectiveProcessData, h]
  | some b => simp [effectiveProcessData, h]

/-- C6: for every update call whose data object holds an id member, the
dispatched request is a PUT whose path ends in a slash followed by that
id value and whose body is the data object with the id member removed,
shown here for Users.update and Nginx.ProxyHosts.update. -/
theorem c6_update_strips_id (data : List (String × Json)) (v : Json) :
    jsGet "id" data = some v →
      ((Users.update data).2.verb = "put"
       ∧ (Users.update data).2.path = "users/" ++ jsValToString v
       ∧ (∃ pre, (Users.update data).2.path = pre ++ ("/" ++ jsValToString v))
       ∧ (Users.update data).2.data = Body.obj (Json.obj (jsDelete "id" data))
       ∧ jsGet "id" (jsDelete "id" data) = none)
      ∧ ((ProxyHosts.update data).2.verb = "put"
       ∧ (ProxyHosts.update data).2.path = "nginx/proxy-hosts/" ++ jsValToString v
       ∧ (∃ pre, (ProxyHosts.update data).2.path = pre ++ ("/" ++ jsValToString v))
       ∧ (ProxyHosts.update data).2.data = Body.obj (Json.obj (jsDelete "id" data))) := by
  intro h
  have hu : (Users.update data).2.path = "users/" ++ jsValToString v := by
    simp [Users.update, updateObject, h, jsOptToString]
  have hp : (ProxyHosts.update data).2.path = "nginx/proxy-hosts/" ++ jsValToString v := by
    simp [ProxyHosts.update, updateObject, h, jsOptToString]
  refine ⟨⟨rfl, hu, ⟨"users", ?_⟩, rfl, jsGet_jsDelete_self "id" data⟩,
          rfl, hp, ⟨"nginx/proxy-hosts", ?_⟩, rfl⟩
  · rw [hu, ← strAppendAssoc,
      show ("users" : String) ++ "/" = "users/" from rfl]
  · rw [hp, ← strAppendAssoc,
      show ("nginx/proxy-hosts" : String) ++ "/" = "nginx/proxy-hosts/" from rfl]

/-- Witness for C6: updating the object with id 5 and name x sends a PUT
to users/5 with the body holding only the name member. -/
theorem c6_update_strips_id_witness :
    (Users.update [("id", Json.num 5), ("name", Json.str "x")]).2.verb = "put"
    ∧ (Users.update [("id", Json.num 5), ("name", Json.str "x")]).2.path = "users/5"
    ∧ (Users.update [("id", Json.num 5), ("name", Json.str "x")]).2.data
        = Body.obj (Json.obj [("name", Json.str "x")]) := by
  have h := c6_update_strips_id [("id", Json.num 5), ("name", Json.str "x")] (Json.num 5) rfl
  refine ⟨h.1.1, ?_, ?_⟩
  · rw [h.1.2.1]
    rfl
  · rw [h.1.2.2.2.1]
    rfl

/-- C7: when the login response holds a token and wipe is true, the store
is cleared first and then the new token is added (leaving exactly that
token) and the call resolves with it; when the login response holds no
token the store is cleared and the call rejects with the no-token error;
when the refresh response holds a token the current (topmost) token is
overwritten with it and the call resolves with it; when the refresh
response holds no token the store is cleared and the call rejects. -/
theorem c7_login_refresh_token_flow (r : TokenResponse) (store : List Token) (w : Bool) :
    (∀ tk, r.token = some tk →
      loginHandler true r store = (addToken tk (clearTokens store), Except.ok tk)
      ∧ loginHandler true r store = ([tk], Except.ok tk)
      ∧ refreshHandler r store = (setCurrentToken tk store, Except.ok tk)
      ∧ getTopToken (refreshHandler r store).1 = some tk)
    ∧ (r.token = none →
      loginHandler w r store = ([], Except.error "No token returned")
      ∧ refreshHandler r store = ([], Except.error "No token returned")) := by
  constructor
  · intro tk h
    refine ⟨?_, ?_, ?_, ?_⟩
    · simp [loginHandler, h]
    · simp [loginHandler, h, addToken, clearTokens]
    · simp [refreshHandler, h]
    · simp only [refreshHandler, h]
      cases store <;> rfl
  · intro h
    constructor
    · simp [loginHandler, h, clearTokens]
    · simp [refreshHandler, h, clearTokens]

/-- Witness for C7: a concrete login with wipe over a store holding an
old token, and a concrete refresh, with and without a returned token. -/
theorem c7_login_refresh_token_flow_witness :
    loginHandler true ⟨some ⟨"new"⟩⟩ [⟨"old"⟩] = ([⟨"new"⟩], Except.ok ⟨"new"⟩)
    ∧ refreshHandler ⟨some ⟨"new"⟩⟩ [⟨"old"⟩, ⟨"older"⟩]
        = ([⟨"new"⟩, ⟨"older"⟩], Except.ok ⟨"new"⟩)
    ∧ loginHandler true ⟨none⟩ [⟨"old"⟩] = ([], Except.error "No token returned")
    ∧ refreshHandler ⟨none⟩ [⟨"old"⟩] = ([], Except.error "No token returned") := by
  have h1 := (c7_login_refresh_token_flow ⟨some ⟨"new"⟩⟩ [⟨"old"⟩] true).1 ⟨"new"⟩ rfl
  have h2 := (c7_login_refresh_token_flow ⟨some ⟨"new"⟩⟩ [⟨"old"⟩, ⟨"older"⟩] true).1 ⟨"new"⟩ rfl
  have h3 := (c7_login_refresh_token_flow ⟨none⟩ [⟨"old"⟩] true).2 rfl
  exact ⟨h1.2.1, h2.2.2.1, h3.1, h3.2⟩

/-- C8: a getAll call with a non-empty expansion list and a string query
dispatches a GET whose query string is the expand parameter holding the
percent-encoded items joined with commas, followed by the query parameter
holding the raw query string; and the produced encoding of the
documented example parses to the same parameters as the percent-encoded
form given in the claim. -/
theorem c8_getall_query_string (p : String) (xs : List String) (q : String) (h : xs ≠ []) :
    (getAllObjects p (some xs) (some q)).verb = "get"
    ∧ (getAllObjects p (some xs) (some q)).path
        = p ++ "?expand=" ++ String.intercalate "," (xs.map encodeURIComponent) ++ "&query=" ++ q
    ∧ parseQuery "expand=owner,certificate&query=foo=bar"
        = parseQuery "expand=owner%2Ccertificate&query=foo%3Dbar"
    ∧ parseQuery "expand=owner,certificate&query=foo=bar"
        = [("expand", "owner,certificate"), ("query", "foo=bar")] := by
  have hlen : xs.length ≠ 0 := by simpa [List.length_eq_zero] using h
  refine ⟨rfl, ?_, by decide, by decide⟩
  simp only [getAllObjects, makeExpansionString, hlen, if_true]
  simp [hlen]
  have hpair : ∀ (s a b : String), String.intercalate s [a, b] = a ++ s ++ b := fun _ _ _ => rfl
  rw [hpair]
  apply String.ext
  simp [String.data_append]

/-- Witness for C8 at the documented example: the expansion list owner,
certificate with query foo=bar yields the path
users?expand=owner,certificate&query=foo=bar. -/
theorem c8_getall_query_string_witness :
    (getAllObjects "users" (some ["owner", "certificate"]) (some "foo=bar")).path
      = "users?expand=owner,certificate&query=foo=bar" := by
  have h := c8_getall_query_string "users" ["owner", "certificate"] "foo=bar" (by simp)
  rw [h.2.1]
  rfl

/-- C9: the dedicated raw upload path rejects with a generic error
carrying the HTTP status code for every completed request whose status is
neither 200 nor 201, resolves with the plain response text for status 200
or 201, ignores the response headers entirely (no pagination parsing, no
content negotiation), and is the path Nginx.ProxyHosts.setCerts uses on
the certificates sub-path. -/
theorem c9_fileupload_raw_path (status : Nat) (text : String) (hs : List (String × String)) :
    (status ≠ 200 → status ≠ 201 →
      fileUploadComplete status text hs = Except.error ("Upload failed: " ++ toString status))
    ∧ (status = 200 ∨ status = 201 → fileUploadComplete status text hs = Except.ok text)
    ∧ (∀ hs2, fileUploadComplete status text hs = fileUploadComplete status text hs2)
    ∧ (∀ (id : Int) (fd : Body) (tok : Option Token),
        (ProxyHosts.setCerts id fd tok).url
          = "/api/" ++ ("nginx/proxy-hosts/" ++ toString id ++ "/certificates")
        ∧ (ProxyHosts.setCerts id fd tok).mime = "text/plain") := by
  refine ⟨?_, ?_, ?_, ?_⟩
  · intro h1 h2
    simp [fileUploadComplete, h1, h2]
  · intro h
    rcases h with h | h <;> subst h <;> rfl
  · intro hs2
    rfl
  · intro id fd tok
    exact ⟨rfl, rfl⟩

/-- Witness for C9: status 404 rejects with the status in the message,
status 200 and 201 resolve with the plain text. -/
theorem c9_fileupload_raw_path_witness :
    fileUploadComplete 404 "oops" [] = Except.error "Upload failed: 404"
    ∧ fileUploadComplete 200 "ok-text" [] = Except.ok "ok-text"
    ∧ fileUploadComplete 201 "created" [] = Except.ok "created" := by
  have h1 := (c9_fileupload_raw_path 404 "oops" []).1 (by decide) (by decide)
  have h2 := (c9_fileupload_raw_path 200 "ok-text" []).2.1 (Or.inl rfl)
  have h3 := (c9_fileupload_raw_path 201 "created" []).2.1 (Or.inr rfl)
  exact ⟨by rw [h1]; rfl, h2, h3⟩

/-- C10: every update call mutates the data object of the caller in
place; with the mutation embedded as explicit state passing, the
post-state of the argument (first component) is the object with its id
member deleted, hence no longer holds an id, shown for Users.update and
AccessLists.update. -/
theorem c10_update_mutates_argument (data : List (String × Json)) :
    (Users.update data).1 = jsDelete "id" data
    ∧ jsGet "id" (Users.update data).1 = none
    ∧ (AccessLists.update data).1 = jsDelete "id" data
    ∧ jsGet "id" (AccessLists.update data).1 = none := by
  refine ⟨rfl, ?_, rfl, ?_⟩
  · exact jsGet_jsDelete_self "id" data
  · exact jsGet_jsDelete_self "id" data

end NpmApi
